import Mathlib

/-!
Verification development for the Secret Santa game core (db.py / bot.py).

The Python modules are shallowly embedded: the SQLite tables become an
explicit state record (`DB`), each db.py function becomes a Lean function
on that state, and the relevant bot.py message handlers become functions
from the state and the per-user conversation state to the new state plus
the reply that is sent.  The random source used by `random.shuffle` is an
explicit parameter `rand : Nat → List Nat → List Nat` (attempt index and
list to shuffle); the fact that `random.shuffle` always produces a
permutation of its input is the `Shuffler` hypothesis.
-/

/-- Python text values are sequences of code points; modelling them as
`List Char` keeps every text operation kernel-computable. -/
abbrev PyStr := List Char

/-- Python `str.strip()` removes this default whitespace at both ends. -/
def pyIsSpace (c : Char) : Bool :=
  c = ' ' || c = '\t' || c = '\n' || c = '\r' || c = '\x0b' || c = '\x0c'

/-- Python `str.strip()`. -/
def pyStrip (s : PyStr) : PyStr :=
  ((s.dropWhile pyIsSpace).reverse.dropWhile pyIsSpace).reverse

/-- Python `str.startswith("/")`. -/
def startsWithSlash : PyStr → Bool
  | [] => false
  | c :: _ => c = '/'

/-- One row of the `players` table (db.py, `init_db`).  Timestamps are
abstracted to `Nat`. -/
structure Player where
  id : Nat
  tg_id : Nat
  tg_username : Option PyStr
  full_name : Option PyStr
  wish : Option PyStr
  target_id : Option Nat
  created_at : Nat
  updated_at : Nat
  deriving DecidableEq

/-- The whole database: the `players` table (in rowid order), the
AUTOINCREMENT counter for `players.id`, and the singleton `game_state`
row. -/
structure DB where
  players : List Player
  next_id : Nat
  registration_open : Bool
  pairs_assigned : Bool
  deriving DecidableEq

/-- State after `init_db` on a fresh database: no players, the single
`game_state` row with `registration_open = 1, pairs_assigned = 0`. -/
def initDB : DB :=
  { players := [], next_id := 1, registration_open := true, pairs_assigned := false }

/-- db.py `get_or_create_player`: return the existing row for `tg_id`
(`tg_id` is UNIQUE, so `find?` matches the SELECT) or insert a new row
with NULL name, wish and target. -/
def get_or_create_player (tg_id : Nat) (tg_username : Option PyStr) (now : Nat)
    (db : DB) : Player × DB :=
  match db.players.find? (fun p => p.tg_id == tg_id) with
  | some p => (p, db)
  | none =>
      let newP : Player :=
        { id := db.next_id, tg_id := tg_id, tg_username := tg_username,
          full_name := none, wish := none, target_id := none,
          created_at := now, updated_at := now }
      (newP, { db with players := db.players ++ [newP], next_id := db.next_id + 1 })

/-- db.py `update_full_name`: `UPDATE players SET full_name = ?,
updated_at = ? WHERE tg_id = ?`.  A zero-row match is a silent no-op. -/
def update_full_name (tg_id : Nat) (full_name : PyStr) (now : Nat) (db : DB) : DB :=
  { db with
    players := db.players.map (fun p =>
      if p.tg_id = tg_id then { p with full_name := some full_name, updated_at := now } else p) }

/-- db.py `update_wish`: `UPDATE players SET wish = ?, updated_at = ?
WHERE tg_id = ?`.  A zero-row match is a silent no-op. -/
def update_wish (tg_id : Nat) (wish : PyStr) (now : Nat) (db : DB) : DB :=
  { db with
    players := db.players.map (fun p =>
      if p.tg_id = tg_id then { p with wish := some wish, updated_at := now } else p) }

/-- db.py `set_player_target`: `UPDATE players SET target_id = ?,
updated_at = ? WHERE id = ?`. -/
def set_player_target (santa_id receiver_id : Nat) (now : Nat) (db : DB) : DB :=
  { db with
    players := db.players.map (fun p =>
      if p.id = santa_id then { p with target_id := some receiver_id, updated_at := now } else p) }

/-- db.py `get_all_players_ready`: `SELECT * FROM players WHERE full_name
IS NOT NULL AND wish IS NOT NULL` (rowid order). -/
def get_all_players_ready (db : DB) : List Player :=
  db.players.filter (fun p => p.full_name.isSome && p.wish.isSome)

/-- db.py `set_registration_open`. -/
def set_registration_open (value : Bool) (db : DB) : DB :=
  { db with registration_open := value }

/-- db.py `set_pairs_assigned`. -/
def set_pairs_assigned (value : Bool) (db : DB) : DB :=
  { db with pairs_assigned := value }

/-- The `for _ in range(max_attempts)` loop of `_create_derangement`:
at each remaining-fuel step `k+1`, draw `rand k ids` (the shuffled copy
of `ids`), accept it when no position is a fixed point, otherwise keep
trying; `None` when the fuel is exhausted. -/
def create_derangement_loop (rand : Nat → List Nat → List Nat) (ids : List Nat) :
    Nat → Option (List (Nat × Nat))
  | 0 => none
  | k + 1 =>
      if (ids.zip (rand k ids)).all (fun pr => pr.1 != pr.2) then some (ids.zip (rand k ids))
      else create_derangement_loop rand ids k

/-- db.py `_create_derangement`: `None` for fewer than 2 ids, otherwise
rejection sampling with a budget of `max_attempts = 100`. -/
def create_derangement (rand : Nat → List Nat → List Nat) (ids : List Nat) :
    Option (List (Nat × Nat)) :=
  if ids.length < 2 then none
  else create_derangement_loop rand ids 100

/-- The write loop of `assign_pairs`: `for santa_id, receiver_id in
pairs: set_player_target(santa_id, receiver_id)`. -/
def applyTargets (pairs : List (Nat × Nat)) (now : Nat) (db : DB) : DB :=
  pairs.foldl (fun d pr => set_player_target pr.1 pr.2 now d) db

/-- db.py `assign_pairs`.  Note that the Python `if not pairs:` check is
falsy both for `None` and for the empty list, and that the unsatisfiable
branch returns `(False, 0)`. -/
def assign_pairs (rand : Nat → List Nat → List Nat) (now : Nat) (db : DB) :
    (Bool × Nat) × DB :=
  if (get_all_players_ready db).length < 2 then
    ((false, (get_all_players_ready db).length), db)
  else
    match create_derangement rand ((get_all_players_ready db).map Player.id) with
    | none => ((false, 0), db)
    | some [] => ((false, 0), db)
    | some (pr :: rest) =>
        ((true, (get_all_players_ready db).length),
          set_pairs_assigned true (set_registration_open false (applyTargets (pr :: rest) now db)))

/-- db.py `reset_game` (soft reset): NULL out name, wish and target on
every row (UPDATE without WHERE), refresh `updated_at`, reopen
registration and clear `pairs_assigned`. -/
def reset_game (now : Nat) (db : DB) : DB :=
  { db with
    players := db.players.map (fun p =>
      { p with full_name := none, wish := none, target_id := none, updated_at := now }),
    registration_open := true,
    pairs_assigned := false }

/-- db.py `hard_reset_game`: `DELETE FROM players` (the AUTOINCREMENT
sequence survives a DELETE, so `next_id` is kept) and reset the game
state. -/
def hard_reset_game (db : DB) : DB :=
  { db with players := [], registration_open := true, pairs_assigned := false }

/-- Fallback row for the dictionary lookup in `build_test_pairs`; under
the derangement contract every looked-up id is present, so this value is
never the one returned. -/
def defaultPlayer : Player :=
  { id := 0, tg_id := 0, tg_username := none, full_name := none, wish := none,
    target_id := none, created_at := 0, updated_at := 0 }

/-- The `id_to_player[...]` dictionary lookup of `build_test_pairs`
(player ids are unique, so first match equals the dict entry). -/
def lookupById (ps : List Player) (i : Nat) : Player :=
  (ps.find? (fun p => p.id == i)).getD defaultPlayer

/-- db.py `build_test_pairs`: same ready set and derangement as the real
draw, but nothing is written back — the state component of the result is
the input state (the function only runs SELECTs). -/
def build_test_pairs (rand : Nat → List Nat → List Nat) (db : DB) :
    (Bool × Nat × List (Player × Player)) × DB :=
  if (get_all_players_ready db).length < 2 then
    ((false, (get_all_players_ready db).length, []), db)
  else
    match create_derangement rand ((get_all_players_ready db).map Player.id) with
    | none => ((false, (get_all_players_ready db).length, []), db)
    | some [] => ((false, (get_all_players_ready db).length, []), db)
    | some (pr :: rest) =>
        ((true, (get_all_players_ready db).length,
          (pr :: rest).map (fun q =>
            (lookupById (get_all_players_ready db) q.1,
             lookupById (get_all_players_ready db) q.2))), db)

/-!  bot.py layer: the aiogram FSM conversation state of one user and the
message handlers relevant to the claims. -/

/-- The per-user aiogram FSM state: no state, `Registration.waiting_full_name`
or `Registration.waiting_wish`. -/
inductive FsmState where
  | idle
  | waitingFullName
  | waitingWish
  deriving DecidableEq

/-- The reply a player handler sends (identified by its message key in
texts.py; the wording is presentation-layer and out of scope). -/
inductive Reply where
  | askFullNameInvalid
  | askWish
  | askWishInvalid
  | registrationDone
  | startNew
  | continueNoName
  | alreadyRegisteredWaitingDraw
  | registrationDoneAskKnow
  | registrationDoneInfo
  | startAfterCloseNew
  deriving DecidableEq

/-- The reply of the `/close_reg` admin handler. -/
inductive CloseRegReply where
  | alreadyClosed
  | notEnoughPlayers (count : Nat)
  | drawFailed
  | success (count : Nat)
  deriving DecidableEq

/-- Python truthiness of `message.text` / a nullable text column:
falsy exactly when the value is missing or the empty string. -/
def strTruthy : Option PyStr → Bool
  | none => false
  | some s => !s.isEmpty

/-- bot.py `process_full_name` (the `Registration.waiting_full_name`
handler): reject falsy text and text whose stripped form starts with a
command slash without touching anything; otherwise store the stripped
name and move to `waiting_wish`. -/
def process_full_name (tg_id : Nat) (now : Nat) (text : Option PyStr)
    (db : DB) (fsm : FsmState) : DB × FsmState × Reply :=
  if strTruthy text = false then (db, fsm, Reply.askFullNameInvalid)
  else
    let t := pyStrip (text.getD [])
    if startsWithSlash t then (db, fsm, Reply.askFullNameInvalid)
    else (update_full_name tg_id t now db, FsmState.waitingWish, Reply.askWish)

/-- bot.py `process_wish` (the `Registration.waiting_wish` handler):
same input checks; on success store the stripped wish and clear the FSM
state. -/
def process_wish (tg_id : Nat) (now : Nat) (text : Option PyStr)
    (db : DB) (fsm : FsmState) : DB × FsmState × Reply :=
  if strTruthy text = false then (db, fsm, Reply.askWishInvalid)
  else
    let t := pyStrip (text.getD [])
    if startsWithSlash t then (db, fsm, Reply.askWishInvalid)
    else (update_wish tg_id t now db, FsmState.idle, Reply.registrationDone)

/-- bot.py `cmd_start`: create the player if needed; when registration is
closed, answer without touching the FSM state; when open, clear the FSM
state and re-enter the registration flow at the right step. -/
def cmd_start (tg_id : Nat) (tg_username : Option PyStr) (now : Nat)
    (db : DB) (fsm : FsmState) : DB × FsmState × Reply :=
  let created := get_or_create_player tg_id tg_username now db
  let player := created.1
  let db1 := created.2
  if db1.registration_open = false then
    if strTruthy player.full_name && strTruthy player.wish then
      if db1.pairs_assigned then (db1, fsm, Reply.registrationDoneAskKnow)
      else (db1, fsm, Reply.registrationDoneInfo)
    else (db1, fsm, Reply.startAfterCloseNew)
  else
    if strTruthy player.full_name = false then
      (db1, FsmState.waitingFullName,
        if player.wish = none then Reply.startNew else Reply.continueNoName)
    else if strTruthy player.wish = false then
      (db1, FsmState.waitingWish, Reply.askWish)
    else (db1, FsmState.idle, Reply.alreadyRegisteredWaitingDraw)

/-- bot.py `cmd_close_reg` (admin-gated; the admin check is outside the
core): refuse when the game is already drawn, otherwise run
`assign_pairs` and classify the failure by whether the returned count is
below 2. -/
def cmd_close_reg (rand : Nat → List Nat → List Nat) (now : Nat) (db : DB) :
    CloseRegReply × DB :=
  if !db.registration_open && db.pairs_assigned then
    (CloseRegReply.alreadyClosed, db)
  else
    if (assign_pairs rand now db).1.1 = false then
      if (assign_pairs rand now db).1.2 < 2 then
        (CloseRegReply.notEnoughPlayers (assign_pairs rand now db).1.2,
          (assign_pairs rand now db).2)
      else (CloseRegReply.drawFailed, (assign_pairs rand now db).2)
    else
      (CloseRegReply.success (assign_pairs rand now db).1.2, (assign_pairs rand now db).2)

/-!  Spec-modelled reference operations and the reachable-state relation. -/

/-- Error kind of the Participant Store contract in the spec. -/
inductive StoreError where
  | notFound
  deriving DecidableEq

/-- Modelled from the spec: `setDisplayName(external_id, name)` fails
with `NotFound` if no participant exists for `external_id` (the code
counterpart `update_full_name` has no failure path). -/
def setDisplayName_specModel (tg_id : Nat) (full_name : PyStr) (now : Nat)
    (db : DB) : Except StoreError DB :=
  if db.players.any (fun p => p.tg_id == tg_id) then
    Except.ok (update_full_name tg_id full_name now db)
  else Except.error StoreError.notFound

/-- Modelled from the spec: `setWish(external_id, wish)` fails with
`NotFound` if no participant exists for `external_id` (the code
counterpart `update_wish` has no failure path). -/
def setWish_specModel (tg_id : Nat) (wish : PyStr) (now : Nat)
    (db : DB) : Except StoreError DB :=
  if db.players.any (fun p => p.tg_id == tg_id) then
    Except.ok (update_wish tg_id wish now db)
  else Except.error StoreError.notFound

/-- `random.shuffle` always produces a permutation of its input. -/
def Shuffler (rand : Nat → List Nat → List Nat) : Prop :=
  ∀ k l, (rand k l).Perm l

/-- States reachable from the initial database by the program operations:
player creation, the two registration writes, the draw, soft reset and
hard reset. -/
inductive Reachable : DB → Prop where
  | init : Reachable initDB
  | step_get_or_create {db : DB} (tg_id : Nat) (tg_username : Option PyStr) (now : Nat) :
      Reachable db → Reachable (get_or_create_player tg_id tg_username now db).2
  | step_full_name {db : DB} (tg_id : Nat) (full_name : PyStr) (now : Nat) :
      Reachable db → Reachable (update_full_name tg_id full_name now db)
  | step_wish {db : DB} (tg_id : Nat) (wish : PyStr) (now : Nat) :
      Reachable db → Reachable (update_wish tg_id wish now db)
  | step_draw {db : DB} {rand : Nat → List Nat → List Nat} (now : Nat) :
      Shuffler rand → Reachable db → Reachable (assign_pairs rand now db).2
  | step_soft_reset {db : DB} (now : Nat) :
      Reachable db → Reachable (reset_game now db)
  | step_hard_reset {db : DB} :
      Reachable db → Reachable (hard_reset_game db)

/-!  Helper lemmas. -/

/-- A successful rejection-sampling loop returns the zip of the ids with
one of the drawn shuffles, and the acceptance test guarantees no fixed
point. -/
lemma create_derangement_loop_some {rand : Nat → List Nat → List Nat}
    {ids : List Nat} {fuel : Nat} {ps : List (Nat × Nat)}
    (h : create_derangement_loop rand ids fuel = some ps) :
    ∃ k, ps = ids.zip (rand k ids) ∧ ∀ pr ∈ ps, pr.1 ≠ pr.2 := by
  induction fuel with
  | zero => simp [create_derangement_loop] at h
  | succ k ih =>
      rw [create_derangement_loop] at h
      by_cases hc : (ids.zip (rand k ids)).all (fun pr => pr.1 != pr.2) = true
      · rw [if_pos hc] at h
        have hps : ps = ids.zip (rand k ids) := (Option.some_inj.mp h).symm
        refine ⟨k, hps, ?_⟩
        intro pr hpr
        have := List.all_eq_true.mp hc pr (hps ▸ hpr)
        simpa using this
      · rw [if_neg hc] at h
        exact ih h

/-- Shape of a successful `_create_derangement` run when the shuffles are
permutations: the santa column is exactly the input, the receiver column
is a permutation of it, and no pair is a fixed point. -/
lemma create_derangement_spec {rand : Nat → List Nat → List Nat} (hr : Shuffler rand)
    {ids : List Nat} {ps : List (Nat × Nat)}
    (h : create_derangement rand ids = some ps) :
    ps.length = ids.length ∧ ps.map Prod.fst = ids ∧ (ps.map Prod.snd).Perm ids ∧
      ∀ pr ∈ ps, pr.1 ≠ pr.2 := by
  unfold create_derangement at h
  split at h
  · exact absurd h (by simp)
  · obtain ⟨k, hk, hnf⟩ := create_derangement_loop_some h
    have hlen : (rand k ids).length = ids.length := (hr k ids).length_eq
    refine ⟨?_, ?_, ?_, hnf⟩
    · rw [hk, List.length_zip, hlen, Nat.min_self]
    · rw [hk]
      exact List.map_fst_zip ids (rand k ids) (le_of_eq hlen.symm)
    · rw [hk, List.map_snd_zip ids (rand k ids) (le_of_eq hlen)]
      exact hr k ids

/-- The per-player effect of the target-writing loop of `assign_pairs`. -/
def applyT (pairs : List (Nat × Nat)) (now : Nat) (p : Player) : Player :=
  pairs.foldl
    (fun q pr => if q.id = pr.1 then { q with target_id := some pr.2, updated_at := now } else q) p

lemma applyTargets_players (pairs : List (Nat × Nat)) (now : Nat) :
    ∀ db : DB, (applyTargets pairs now db).players = db.players.map (applyT pairs now) := by
  induction pairs with
  | nil => intro db; exact (List.map_id' db.players).symm
  | cons pr rest ih =>
      intro db
      have h1 : applyTargets (pr :: rest) now db
          = applyTargets rest now (set_player_target pr.1 pr.2 now db) := rfl
      rw [h1, ih, set_player_target]
      simp only [List.map_map]
      rfl

lemma applyTargets_next_id (pairs : List (Nat × Nat)) (now : Nat) :
    ∀ db : DB, (applyTargets pairs now db).next_id = db.next_id := by
  induction pairs with
  | nil => intro db; rfl
  | cons pr rest ih => intro db; exact ih (set_player_target pr.1 pr.2 now db)

lemma applyT_id (pairs : List (Nat × Nat)) (now : Nat) :
    ∀ p : Player, (applyT pairs now p).id = p.id := by
  induction pairs with
  | nil => intro p; rfl
  | cons pr rest ih =>
      intro p
      have h1 : applyT (pr :: rest) now p
          = applyT rest now
              (if p.id = pr.1 then { p with target_id := some pr.2, updated_at := now } else p) := rfl
      rw [h1, ih]
      by_cases hc : p.id = pr.1 <;> simp [hc]

lemma applyT_not_mem (now : Nat) :
    ∀ (pairs : List (Nat × Nat)) (p : Player), p.id ∉ pairs.map Prod.fst →
      applyT pairs now p = p := by
  intro pairs
  induction pairs with
  | nil => intro p _; rfl
  | cons pr rest ih =>
      intro p hp
      have hne : p.id ≠ pr.1 := by
        intro hcon
        exact hp (by simp [hcon])
      have h1 : applyT (pr :: rest) now p = applyT rest now p := by
        show applyT rest now (if p.id = pr.1 then _ else p) = applyT rest now p
        rw [if_neg hne]
      rw [h1]
      exact ih p (fun hcon => hp (by simp at hcon ⊢; right; exact hcon))

lemma applyT_mem (now : Nat) :
    ∀ (pairs : List (Nat × Nat)) (p : Player) (r : Nat),
      (pairs.map Prod.fst).Nodup → (p.id, r) ∈ pairs →
      (applyT pairs now p).target_id = some r := by
  intro pairs
  induction pairs with
  | nil => intro p r _ hmem; simp at hmem
  | cons pr rest ih =>
      intro p r hnd hmem
      have hnd0 := List.nodup_cons.mp (show (pr.1 :: rest.map Prod.fst).Nodup from hnd)
      have hnd1 : pr.1 ∉ rest.map Prod.fst := hnd0.1
      have hnd2 : (rest.map Prod.fst).Nodup := hnd0.2
      rcases List.mem_cons.mp hmem with hhead | htail
      · have hfst : p.id = pr.1 := by rw [← hhead]
        have hsnd : r = pr.2 := by rw [← hhead]
        have h1 : applyT (pr :: rest) now p
            = applyT rest now { p with target_id := some pr.2, updated_at := now } := by
          show applyT rest now (if p.id = pr.1 then _ else p) = _
          rw [if_pos hfst]
        rw [h1, applyT_not_mem now rest _ (by simpa [hfst] using hnd1)]
        rw [hsnd]
      · have hin : p.id ∈ rest.map Prod.fst := List.mem_map_of_mem Prod.fst htail
        have hne : p.id ≠ pr.1 := fun hcon => hnd1 (hcon ▸ hin)
        have h1 : applyT (pr :: rest) now p = applyT rest now p := by
          show applyT rest now (if p.id = pr.1 then _ else p) = applyT rest now p
          rw [if_neg hne]
        rw [h1]
        exact ih p r hnd2 htail

/-- Mapping a row-transformer over the table leaves a field untouched
when the transformer does. -/
lemma map_players_field {β : Type} (f : Player → Player) (g : Player → β)
    (h : ∀ p, g (f p) = g p) :
    ∀ l : List Player, (l.map f).map g = l.map g := by
  intro l
  induction l with
  | nil => rfl
  | cons a t ih => simp [h, ih]

lemma map_players_const {β : Type} (f : Player → Player) (g : Player → β) (c : β)
    (h : ∀ p, g (f p) = c) :
    ∀ l : List Player, (l.map f).map g = List.replicate l.length c := by
  intro l
  induction l with
  | nil => rfl
  | cons a t ih => simp [h, ih, List.replicate_succ]

/-- The dictionary lookup of `build_test_pairs` on an id that is present
returns a member row carrying that id. -/
lemma lookupById_spec {ps : List Player} {i : Nat} (h : ∃ q ∈ ps, q.id = i) :
    lookupById ps i ∈ ps ∧ (lookupById ps i).id = i := by
  unfold lookupById
  cases hf : ps.find? (fun p => p.id == i) with
  | none =>
      obtain ⟨q, hq, hqi⟩ := h
      have := List.find?_eq_none.mp hf q hq
      simp [hqi] at this
  | some r =>
      constructor
      · exact List.mem_of_find?_eq_some hf
      · have := List.find?_some hf
        simpa using this

lemma ready_sublist (db : DB) : List.Sublist (get_all_players_ready db) db.players :=
  List.filter_sublist _

lemma ready_ids_nodup {db : DB} (h : (db.players.map Player.id).Nodup) :
    ((get_all_players_ready db).map Player.id).Nodup :=
  (((ready_sublist db).map Player.id).nodup h)

/-- Exhaustive description of what `assign_pairs` does: the three
failure/success shapes of the Python function. -/
lemma assign_pairs_cases (rand : Nat → List Nat → List Nat) (now : Nat) (db : DB) :
    ((get_all_players_ready db).length < 2 ∧
      assign_pairs rand now db = ((false, (get_all_players_ready db).length), db)) ∨
    (2 ≤ (get_all_players_ready db).length ∧
      ((assign_pairs rand now db = ((false, 0), db) ∧
        (create_derangement rand ((get_all_players_ready db).map Player.id) = none ∨
         create_derangement rand ((get_all_players_ready db).map Player.id) = some [])) ∨
       (∃ ps, ps ≠ [] ∧
         create_derangement rand ((get_all_players_ready db).map Player.id) = some ps ∧
         assign_pairs rand now db = ((true, (get_all_players_ready db).length),
           set_pairs_assigned true
             (set_registration_open false (applyTargets ps now db)))))) := by
  by_cases hlt : (get_all_players_ready db).length < 2
  · left
    refine ⟨hlt, ?_⟩
    unfold assign_pairs
    rw [if_pos hlt]
  · right
    refine ⟨Nat.le_of_not_lt hlt, ?_⟩
    cases hcd : create_derangement rand ((get_all_players_ready db).map Player.id) with
    | none =>
        left
        refine ⟨?_, Or.inl rfl⟩
        unfold assign_pairs
        rw [if_neg hlt, hcd]
    | some ps =>
        cases ps with
        | nil =>
            left
            refine ⟨?_, Or.inr rfl⟩
            unfold assign_pairs
            rw [if_neg hlt, hcd]
        | cons pr rest =>
            right
            refine ⟨pr :: rest, by simp, rfl, ?_⟩
            unfold assign_pairs
            rw [if_neg hlt, hcd]

/-- The internal consistency invariant of the database: player ids are
unique, below the AUTOINCREMENT counter, and every assigned target is
the id of a different existing player. -/
def DBInv (db : DB) : Prop :=
  (db.players.map Player.id).Nodup ∧
  (∀ p ∈ db.players, p.id < db.next_id) ∧
  (∀ p ∈ db.players, p.target_id = none ∨
    ∃ r, p.target_id = some r ∧ r ≠ p.id ∧ r ∈ db.players.map Player.id)

lemma inv_init : DBInv initDB := by
  refine ⟨?_, ?_, ?_⟩ <;> simp [initDB]

lemma inv_get_or_create (tg_id : Nat) (tg_username : Option PyStr) (now : Nat)
    {db : DB} (h : DBInv db) : DBInv (get_or_create_player tg_id tg_username now db).2 := by
  obtain ⟨hnd, hbd, htg⟩ := h
  unfold get_or_create_player
  split
  · exact ⟨hnd, hbd, htg⟩
  · refine ⟨?_, ?_, ?_⟩
    · rw [List.map_append, List.nodup_append]
      refine ⟨hnd, by simp, ?_⟩
      intro a ha hb
      obtain ⟨q, hq, hqa⟩ := List.mem_map.mp ha
      have : a = db.next_id := by simpa using hb
      rw [this] at hqa
      exact absurd hqa (Nat.ne_of_lt (hbd q hq))
    · intro p hp
      rcases List.mem_append.mp hp with hold | hnew
      · exact Nat.lt_succ_of_lt (hbd p hold)
      · have : p.id = db.next_id := by
          have := List.mem_singleton.mp hnew
          rw [this]
        rw [this]
        exact Nat.lt_succ_self _
    · intro p hp
      rcases List.mem_append.mp hp with hold | hnew
      · rcases htg p hold with hnone | ⟨r, h1, h2, h3⟩
        · exact Or.inl hnone
        · exact Or.inr ⟨r, h1, h2, by rw [List.map_append]; exact List.mem_append_left _ h3⟩
      · left
        have := List.mem_singleton.mp hnew
        rw [this]

/-- A row-by-row table rewrite that keeps `id` and `target_id` keeps the
invariant (covers the name and wish updates). -/
lemma inv_map_generic {db : DB} (f : Player → Player)
    (hid : ∀ p, (f p).id = p.id) (htar : ∀ p, (f p).target_id = p.target_id)
    (h : DBInv db) : DBInv { db with players := db.players.map f } := by
  obtain ⟨hnd, hbd, htg⟩ := h
  refine ⟨?_, ?_, ?_⟩
  · rw [show ({ db with players := db.players.map f } : DB).players = db.players.map f from rfl,
      map_players_field f Player.id hid db.players]
    exact hnd
  · intro p hp
    obtain ⟨q, hq, hqe⟩ := List.mem_map.mp hp
    rw [← hqe, hid]
    exact hbd q hq
  · intro p hp
    obtain ⟨q, hq, hqe⟩ := List.mem_map.mp hp
    rcases htg q hq with hnone | ⟨r, h1, h2, h3⟩
    · left
      rw [← hqe, htar]
      exact hnone
    · right
      refine ⟨r, ?_, ?_, ?_⟩
      · rw [← hqe, htar]; exact h1
      · rw [← hqe, hid]; exact h2
      · rw [show ({ db with players := db.players.map f } : DB).players = db.players.map f from rfl,
          map_players_field f Player.id hid db.players]
        exact h3

lemma inv_update_full_name (tg_id : Nat) (full_name : PyStr) (now : Nat)
    {db : DB} (h : DBInv db) : DBInv (update_full_name tg_id full_name now db) := by
  refine inv_map_generic _ ?_ ?_ h <;>
    intro p <;> by_cases hc : p.tg_id = tg_id <;> simp [hc]

lemma inv_update_wish (tg_id : Nat) (wish : PyStr) (now : Nat)
    {db : DB} (h : DBInv db) : DBInv (update_wish tg_id wish now db) := by
  refine inv_map_generic _ ?_ ?_ h <;>
    intro p <;> by_cases hc : p.tg_id = tg_id <;> simp [hc]

lemma inv_reset (now : Nat) {db : DB} (h : DBInv db) : DBInv (reset_game now db) := by
  obtain ⟨hnd, hbd, _⟩ := h
  have hclear : ∀ p : Player,
      ({ p with full_name := none, wish := none, target_id := none, updated_at := now } : Player).id = p.id :=
    fun p => rfl
  refine ⟨?_, ?_, ?_⟩
  · rw [show (reset_game now db).players = db.players.map _ from rfl,
      map_players_field _ Player.id hclear db.players]
    exact hnd
  · intro p hp
    obtain ⟨q, hq, hqe⟩ := List.mem_map.mp hp
    rw [← hqe]
    exact hbd q hq
  · intro p hp
    obtain ⟨q, hq, hqe⟩ := List.mem_map.mp hp
    left
    rw [← hqe]

lemma inv_hard_reset {db : DB} (_ : DBInv db) : DBInv (hard_reset_game db) := by
  refine ⟨?_, ?_, ?_⟩ <;> simp [hard_reset_game]

lemma inv_draw {db : DB} {rand : Nat → List Nat → List Nat} (now : Nat)
    (hr : Shuffler rand) (h : DBInv db) : DBInv (assign_pairs rand now db).2 := by
  rcases assign_pairs_cases rand now db with ⟨_, heq⟩ | ⟨_, hrest⟩
  · rw [heq]; exact h
  rcases hrest with ⟨heq, _⟩ | ⟨ps, _, hcd, heq⟩
  · rw [heq]; exact h
  rw [heq]
  obtain ⟨_, hfst, hsnd, hnf⟩ := create_derangement_spec hr hcd
  obtain ⟨hnd, hbd, htg⟩ := h
  have hpl : (set_pairs_assigned true
      (set_registration_open false (applyTargets ps now db))).players
      = db.players.map (applyT ps now) := by
    show (applyTargets ps now db).players = _
    exact applyTargets_players ps now db
  have hnext : (set_pairs_assigned true
      (set_registration_open false (applyTargets ps now db))).next_id = db.next_id := by
    show (applyTargets ps now db).next_id = db.next_id
    exact applyTargets_next_id ps now db
  have hidmap : (db.players.map (applyT ps now)).map Player.id = db.players.map Player.id :=
    map_players_field _ Player.id (applyT_id ps now) db.players
  have hnodupfst : (ps.map Prod.fst).Nodup := by
    rw [hfst]
    exact ready_ids_nodup hnd
  refine ⟨?_, ?_, ?_⟩
  · rw [hpl, hidmap]
    exact hnd
  · intro p hp
    rw [hpl] at hp
    obtain ⟨q, hq, hqe⟩ := List.mem_map.mp hp
    rw [hnext, ← hqe, applyT_id]
    exact hbd q hq
  · intro p hp
    rw [hpl] at hp
    obtain ⟨q, hq, hqe⟩ := List.mem_map.mp hp
    by_cases hq_in : q.id ∈ ps.map Prod.fst
    · obtain ⟨pr, hpr, hpr1⟩ := List.mem_map.mp hq_in
      have hmem : (q.id, pr.2) ∈ ps := by
        rw [← hpr1]
        simpa using hpr
      right
      refine ⟨pr.2, ?_, ?_, ?_⟩
      · rw [← hqe]
        exact applyT_mem now ps q pr.2 hnodupfst hmem
      · rw [← hqe, applyT_id, ← hpr1]
        exact (hnf pr hpr).symm
      · rw [hpl, hidmap]
        have h2 : pr.2 ∈ (get_all_players_ready db).map Player.id := by
          rw [← hfst] at hsnd ⊢
          exact hsnd.mem_iff.mp (List.mem_map_of_mem Prod.snd hpr)
        exact ((ready_sublist db).map Player.id).subset h2
    · rw [← hqe, applyT_not_mem now ps q hq_in]
      rcases htg q hq with hnone | ⟨r, h1, h2, h3⟩
      · exact Or.inl hnone
      · exact Or.inr ⟨r, h1, h2, by rw [hpl, hidmap]; exact h3⟩

/-- Every reachable database satisfies the consistency invariant. -/
lemma reachable_inv {db : DB} (h : Reachable db) : DBInv db := by
  induction h with
  | init => exact inv_init
  | step_get_or_create tg_id tg_username now _ ih =>
      exact inv_get_or_create tg_id tg_username now ih
  | step_full_name tg_id full_name now _ ih => exact inv_update_full_name tg_id full_name now ih
  | step_wish tg_id wish now _ ih => exact inv_update_wish tg_id wish now ih
  | step_draw now hr _ ih => exact inv_draw now hr ih
  | step_soft_reset now _ ih => exact inv_reset now ih
  | step_hard_reset _ ih => exact inv_hard_reset ih

/-- Mapping a function that is the identity on every member leaves the
list unchanged. -/
lemma list_map_mem_id {α : Type} {l : List α} {f : α → α} (h : ∀ a ∈ l, f a = a) :
    l.map f = l := by
  induction l with
  | nil => rfl
  | cons a t ih =>
      rw [List.map_cons, h a (List.mem_cons_self a t),
        ih (fun b hb => h b (List.mem_cons_of_mem a hb))]

lemma list_map_congr {α β : Type} {l : List α} {f g : α → β} (h : ∀ a ∈ l, f a = g a) :
    l.map f = l.map g := by
  induction l with
  | nil => rfl
  | cons a t ih =>
      rw [List.map_cons, List.map_cons, h a (List.mem_cons_self a t),
        ih (fun b hb => h b (List.mem_cons_of_mem a hb))]

/-!  Concrete material used by witnesses and counterexamples. -/

/-- A concrete shuffle source: every attempt reverses the list. -/
def rrand : Nat → List Nat → List Nat := fun _ l => l.reverse

lemma rrand_shuffler : Shuffler rrand := fun _ l => List.reverse_perm l

/-- A degenerate shuffle source: every attempt returns the list
unchanged, so every attempt has a fixed point. -/
def idRand : Nat → List Nat → List Nat := fun _ l => l

/-- A database with two fully registered players. -/
def dbTwoReady : DB :=
  { players :=
      [{ id := 1, tg_id := 10, tg_username := none, full_name := some ['A'],
         wish := some ['x'], target_id := none, created_at := 0, updated_at := 0 },
       { id := 2, tg_id := 20, tg_username := none, full_name := some ['B'],
         wish := some ['y'], target_id := none, created_at := 0, updated_at := 0 }],
    next_id := 3, registration_open := true, pairs_assigned := false }

/-- A closed, drawn-state database holding one participant who never
submitted a name. -/
def c7db : DB :=
  { players :=
      [{ id := 1, tg_id := 10, tg_username := none, full_name := none,
         wish := none, target_id := none, created_at := 0, updated_at := 0 }],
    next_id := 2, registration_open := false, pairs_assigned := true }

/-- An open database holding one participant who has not registered
anything yet. -/
def c8db : DB :=
  { players :=
      [{ id := 1, tg_id := 10, tg_username := none, full_name := none,
         wish := none, target_id := none, created_at := 0, updated_at := 0 }],
    next_id := 2, registration_open := true, pairs_assigned := false }

/-- A database built from the initial state by the program operations
alone: two players register fully and the draw runs. -/
def chainDB : DB :=
  (assign_pairs rrand 2 (update_wish 20 ['y'] 1 (update_full_name 20 ['B'] 1
    (update_wish 10 ['x'] 1 (update_full_name 10 ['A'] 1
      ((get_or_create_player 20 none 0 ((get_or_create_player 10 none 0 initDB).2)).2)))))).2

lemma chainDB_reachable : Reachable chainDB := by
  unfold chainDB
  exact Reachable.step_draw 2 rrand_shuffler
    (Reachable.step_wish 20 ['y'] 1 (Reachable.step_full_name 20 ['B'] 1
      (Reachable.step_wish 10 ['x'] 1 (Reachable.step_full_name 10 ['A'] 1
        (Reachable.step_get_or_create 20 none 0
          (Reachable.step_get_or_create 10 none 0 Reachable.init))))))

/-!  The claims. -/

/-- Claim C1: for every ordered sequence of unique ids, `_create_derangement`
returns `None` when there are fewer than 2 ids; for `n ≥ 2` it either
returns `None` (budget of 100 attempts exhausted) or a list of exactly
`n` pairs whose santa column is exactly the input ids, whose recipient
column is a permutation of the same ids, and in which no pair is a fixed
point. -/
theorem claim1_create_derangement (rand : Nat → List Nat → List Nat) (ids : List Nat)
    (_hu : ids.Nodup) (hr : Shuffler rand) :
    (ids.length < 2 → create_derangement rand ids = none) ∧
    (2 ≤ ids.length →
      create_derangement rand ids = none ∨
      ∃ ps, create_derangement rand ids = some ps ∧ ps.length = ids.length ∧
        ps.map Prod.fst = ids ∧ (ps.map Prod.snd).Perm ids ∧ ∀ pr ∈ ps, pr.1 ≠ pr.2) := by
  constructor
  · intro hlt
    unfold create_derangement
    rw [if_pos hlt]
  · intro _
    cases hcd : create_derangement rand ids with
    | none => exact Or.inl rfl
    | some ps =>
        obtain ⟨hlen, hfst, hsnd, hnf⟩ := create_derangement_spec hr hcd
        exact Or.inr ⟨ps, rfl, hlen, hfst, hsnd, hnf⟩

/-- Witness for C1 at the concrete input `[1, 2]` with the reversing
shuffle source. -/
theorem claim1_witness :
    ((([1, 2] : List Nat).length < 2 → create_derangement rrand [1, 2] = none) ∧
     (2 ≤ ([1, 2] : List Nat).length →
       create_derangement rrand [1, 2] = none ∨
       ∃ ps, create_derangement rrand [1, 2] = some ps ∧
         ps.length = ([1, 2] : List Nat).length ∧
         ps.map Prod.fst = [1, 2] ∧ (ps.map Prod.snd).Perm [1, 2] ∧
         ∀ pr ∈ ps, pr.1 ≠ pr.2)) :=
  claim1_create_derangement rrand [1, 2] (by decide) rrand_shuffler

/-- Claim C6: the soft reset clears `full_name`, `wish` and `target_id`
on every row, reopens registration and clears `pairs_assigned`, while
keeping every row with its `id`, `tg_id` and `created_at`; being a total
function of the state, it succeeds on every state. -/
theorem claim6_reset_game (now : Nat) (db : DB) :
    (reset_game now db).registration_open = true ∧
    (reset_game now db).pairs_assigned = false ∧
    (reset_game now db).players.length = db.players.length ∧
    (reset_game now db).players.map Player.id = db.players.map Player.id ∧
    (reset_game now db).players.map Player.tg_id = db.players.map Player.tg_id ∧
    (reset_game now db).players.map Player.created_at = db.players.map Player.created_at ∧
    (reset_game now db).players.map Player.full_name = List.replicate db.players.length none ∧
    (reset_game now db).players.map Player.wish = List.replicate db.players.length none ∧
    (reset_game now db).players.map Player.target_id = List.replicate db.players.length none := by
  refine ⟨rfl, rfl, ?_, ?_, ?_, ?_, ?_, ?_, ?_⟩
  · exact List.length_map db.players _
  · exact map_players_field
      (fun p => { p with full_name := none, wish := none, target_id := none, updated_at := now })
      Player.id (fun p => rfl) db.players
  · exact map_players_field
      (fun p => { p with full_name := none, wish := none, target_id := none, updated_at := now })
      Player.tg_id (fun p => rfl) db.players
  · exact map_players_field
      (fun p => { p with full_name := none, wish := none, target_id := none, updated_at := now })
      Player.created_at (fun p => rfl) db.players
  · exact map_players_const
      (fun p => { p with full_name := none, wish := none, target_id := none, updated_at := now })
      Player.full_name none (fun p => rfl) db.players
  · exact map_players_const
      (fun p => { p with full_name := none, wish := none, target_id := none, updated_at := now })
      Player.wish none (fun p => rfl) db.players
  · exact map_players_const
      (fun p => { p with full_name := none, wish := none, target_id := none, updated_at := now })
      Player.target_id none (fun p => rfl) db.players

/-- Claim C3: in every state reachable by the program operations, every
assigned recipient is the id of another, existing participant and never
the participant's own id. -/
theorem claim3_target_invariant (db : DB) (h : Reachable db) :
    ∀ p ∈ db.players, p.target_id = none ∨
      ∃ q, q ∈ db.players ∧ p.target_id = some q.id ∧ q.id ≠ p.id := by
  obtain ⟨_, _, htg⟩ := reachable_inv h
  intro p hp
  rcases htg p hp with hnone | ⟨r, h1, h2, h3⟩
  · exact Or.inl hnone
  · obtain ⟨q, hq, hqe⟩ := List.mem_map.mp h3
    exact Or.inr ⟨q, hq, by rw [h1, hqe], by rw [hqe]; exact h2⟩

/-- Witness for C3: the first player of a concrete reachable drawn
state. -/
theorem claim3_witness :
    (chainDB.players.getD 0 defaultPlayer).target_id = none ∨
    ∃ q, q ∈ chainDB.players ∧
      (chainDB.players.getD 0 defaultPlayer).target_id = some q.id ∧
      q.id ≠ (chainDB.players.getD 0 defaultPlayer).id :=
  claim3_target_invariant chainDB chainDB_reachable _ (by decide)

/-- Claim C2: whenever `assign_pairs` succeeds it reports the number of
ready participants, closes registration, marks the pairs as assigned,
and writes the target of every santa of the derangement (whose santa
column is exactly the ready ids) into the players table. -/
theorem claim2_assign_pairs_success (rand : Nat → List Nat → List Nat) (now : Nat) (db : DB)
    (hnd : (db.players.map Player.id).Nodup) (hr : Shuffler rand)
    (hsucc : (assign_pairs rand now db).1.1 = true) :
    (assign_pairs rand now db).1.2 = (get_all_players_ready db).length ∧
    (assign_pairs rand now db).2.registration_open = false ∧
    (assign_pairs rand now db).2.pairs_assigned = true ∧
    ∃ ps, create_derangement rand ((get_all_players_ready db).map Player.id) = some ps ∧
      ps.map Prod.fst = (get_all_players_ready db).map Player.id ∧
      (∀ pr ∈ ps, pr.1 ≠ pr.2) ∧
      ∀ pr ∈ ps, ∀ p ∈ (assign_pairs rand now db).2.players,
        p.id = pr.1 → p.target_id = some pr.2 := by
  rcases assign_pairs_cases rand now db with ⟨_, heq⟩ | ⟨_, hrest⟩
  · rw [heq] at hsucc
    simp at hsucc
  rcases hrest with ⟨heq, _⟩ | ⟨ps, _, hcd, heq⟩
  · rw [heq] at hsucc
    simp at hsucc
  obtain ⟨_, hfst, _, hnf⟩ := create_derangement_spec hr hcd
  have hnodupfst : (ps.map Prod.fst).Nodup := by
    rw [hfst]
    exact ready_ids_nodup hnd
  rw [heq]
  refine ⟨rfl, rfl, rfl, ps, hcd, hfst, hnf, ?_⟩
  intro pr hpr p hp hpid
  have hpl : (set_pairs_assigned true
      (set_registration_open false (applyTargets ps now db))).players
      = db.players.map (applyT ps now) := by
    show (applyTargets ps now db).players = _
    exact applyTargets_players ps now db
  rw [hpl] at hp
  obtain ⟨q, hq, hqe⟩ := List.mem_map.mp hp
  rw [← hqe] at hpid
  rw [applyT_id ps now q] at hpid
  have hmem : (q.id, pr.2) ∈ ps := by
    rw [hpid]
    simpa using hpr
  rw [← hqe]
  exact applyT_mem now ps q pr.2 hnodupfst hmem

/-- Witness for C2 on a concrete two-player database with the reversing
shuffle source. -/
theorem claim2_witness :
    (assign_pairs rrand 0 dbTwoReady).1.2 = (get_all_players_ready dbTwoReady).length ∧
    (assign_pairs rrand 0 dbTwoReady).2.registration_open = false ∧
    (assign_pairs rrand 0 dbTwoReady).2.pairs_assigned = true ∧
    ∃ ps, create_derangement rrand ((get_all_players_ready dbTwoReady).map Player.id)
        = some ps ∧
      ps.map Prod.fst = (get_all_players_ready dbTwoReady).map Player.id ∧
      (∀ pr ∈ ps, pr.1 ≠ pr.2) ∧
      ∀ pr ∈ ps, ∀ p ∈ (assign_pairs rrand 0 dbTwoReady).2.players,
        p.id = pr.1 → p.target_id = some pr.2 :=
  claim2_assign_pairs_success rrand 0 dbTwoReady (by decide) rrand_shuffler (by rfl)

/-- Claim C5: when the game status already has `registration_open = false`
and `pairs_assigned = true`, the draw command answers AlreadyDrawn and
changes nothing; in particular a second draw right after a successful one
answers AlreadyDrawn and keeps the state (hence the pairing) of the
first draw. -/
theorem claim5_draw_idempotent (rand rand2 : Nat → List Nat → List Nat)
    (now now2 : Nat) (db : DB) :
    (db.registration_open = false → db.pairs_assigned = true →
      cmd_close_reg rand now db = (CloseRegReply.alreadyClosed, db)) ∧
    (∀ c db1, cmd_close_reg rand now db = (CloseRegReply.success c, db1) →
      cmd_close_reg rand2 now2 db1 = (CloseRegReply.alreadyClosed, db1)) := by
  constructor
  · intro h1 h2
    unfold cmd_close_reg
    rw [h1, h2]
    simp
  · intro c db1 h
    unfold cmd_close_reg at h
    by_cases hg : (!db.registration_open && db.pairs_assigned) = true
    · rw [if_pos hg] at h
      simp at h
    · rw [if_neg hg] at h
      by_cases hok : (assign_pairs rand now db).1.1 = false
      · rw [if_pos hok] at h
        by_cases hcnt : (assign_pairs rand now db).1.2 < 2
        · rw [if_pos hcnt] at h
          simp at h
        · rw [if_neg hcnt] at h
          simp at h
      · rw [if_neg hok] at h
        have hdb1 : db1 = (assign_pairs rand now db).2 := by
          have h2 := ((Prod.mk.injEq _ _ _ _).mp h).2
          exact h2.symm
        rcases assign_pairs_cases rand now db with ⟨_, heq⟩ | ⟨_, hrest⟩
        · rw [heq] at hok
          exact absurd rfl hok
        rcases hrest with ⟨heq, _⟩ | ⟨ps, _, _, heq⟩
        · rw [heq] at hok
          exact absurd rfl hok
        · have hro : db1.registration_open = false := by
            rw [hdb1, heq]
            rfl
          have hpa : db1.pairs_assigned = true := by
            rw [hdb1, heq]
            rfl
          unfold cmd_close_reg
          rw [hro, hpa]
          simp

/-- Witness for C5: on the concrete two-player database, the second
draw command right after the first, successful, one answers
AlreadyDrawn and keeps the state. -/
theorem claim5_witness :
    cmd_close_reg rrand 1 (cmd_close_reg rrand 0 dbTwoReady).2
      = (CloseRegReply.alreadyClosed, (cmd_close_reg rrand 0 dbTwoReady).2) :=
  (claim5_draw_idempotent rrand rrand 0 1 dbTwoReady).2 2
    (cmd_close_reg rrand 0 dbTwoReady).2 (by rfl)

/-- Claim C4 evaluation at the failing input: with two ready players and
a shuffle source whose every attempt keeps the list unchanged (so every
attempt has a fixed point and the budget is exhausted), `assign_pairs`
performs no mutation but returns `(False, 0)`, and the draw command then
reports the InsufficientPlayers message with count 0 — the distinct
DrawFailed branch of `cmd_close_reg` is not taken. -/
theorem claim4_unsat_reported_as_insufficient :
    assign_pairs idRand 0 dbTwoReady = ((false, 0), dbTwoReady) ∧
    cmd_close_reg idRand 0 dbTwoReady
      = (CloseRegReply.notEnoughPlayers 0, dbTwoReady) := by
  constructor
  · rfl
  · rfl

/-- Counterexample to C7: in a concrete state with
`registration_open = false`, a participant whose conversation is in the
waiting-for-name step submits a name and the handler stores it and
advances the conversation — the attempt is not rejected and
`display_name` does not stay unchanged. -/
theorem claim7_counterexample :
    c7db.registration_open = false ∧
    c7db.players.map Player.full_name = [none] ∧
    (process_full_name 10 1 (some ['A', 'l']) c7db FsmState.waitingFullName).1.players.map
      Player.full_name = [some ['A', 'l']] ∧
    (process_full_name 10 1 (some ['A', 'l']) c7db FsmState.waitingFullName).2.1
      = FsmState.waitingWish := by
  refine ⟨rfl, rfl, ?_, rfl⟩
  rfl

/-- Amended C7: the `registration_open = false` check lives only at the
entry point — `/start` never moves the conversation into a waiting state
while registration is closed (so registration cannot be started or
resumed from scratch), while the name/wish handlers themselves perform
no such check. -/
theorem claim7_amended_start_guard (tg_id : Nat) (tg_username : Option PyStr) (now : Nat)
    (db : DB) (fsm : FsmState) (h : db.registration_open = false) :
    (cmd_start tg_id tg_username now db fsm).2.1 = fsm := by
  have hdb1 : (get_or_create_player tg_id tg_username now db).2.registration_open = false := by
    unfold get_or_create_player
    split
    · exact h
    · exact h
  simp only [cmd_start]
  rw [hdb1]
  simp only [if_pos]
  split
  · split
    · rfl
    · rfl
  · rfl

/-- Witness for the amended C7 on a concrete closed state. -/
theorem claim7_amended_witness :
    (cmd_start 10 none 3 c7db FsmState.idle).2.1 = FsmState.idle :=
  claim7_amended_start_guard 10 none 3 c7db FsmState.idle (by rfl)

/-- Counterexample to C8: whitespace-only input is not rejected by the
name handler — it advances the participant from NEW to NAME_SET and
stores the empty string as the display name. -/
theorem claim8_counterexample :
    c8db.players.map Player.full_name = [none] ∧
    (process_full_name 10 1 (some [' ']) c8db FsmState.waitingFullName).2.1
      = FsmState.waitingWish ∧
    (process_full_name 10 1 (some [' ']) c8db FsmState.waitingFullName).1.players.map
      Player.full_name = [some []] := by
  refine ⟨rfl, rfl, ?_⟩
  rfl

/-- Amended C8: missing or empty input, and input whose stripped form
begins with the command slash, are rejected by both registration steps
without changing anything; every other input — including whitespace-only
input, which strips to the empty string — is accepted, stored stripped,
and advances the conversation state. -/
theorem claim8_amended_input_checks (tg_id now : Nat) (db : DB) (fsm : FsmState) (t : PyStr) :
    (process_full_name tg_id now none db fsm = (db, fsm, Reply.askFullNameInvalid)) ∧
    (process_full_name tg_id now (some []) db fsm = (db, fsm, Reply.askFullNameInvalid)) ∧
    (t ≠ [] → startsWithSlash (pyStrip t) = true →
      process_full_name tg_id now (some t) db fsm = (db, fsm, Reply.askFullNameInvalid)) ∧
    (t ≠ [] → startsWithSlash (pyStrip t) = false →
      process_full_name tg_id now (some t) db fsm
        = (update_full_name tg_id (pyStrip t) now db, FsmState.waitingWish, Reply.askWish)) ∧
    (process_wish tg_id now none db fsm = (db, fsm, Reply.askWishInvalid)) ∧
    (process_wish tg_id now (some []) db fsm = (db, fsm, Reply.askWishInvalid)) ∧
    (t ≠ [] → startsWithSlash (pyStrip t) = true →
      process_wish tg_id now (some t) db fsm = (db, fsm, Reply.askWishInvalid)) ∧
    (t ≠ [] → startsWithSlash (pyStrip t) = false →
      process_wish tg_id now (some t) db fsm
        = (update_wish tg_id (pyStrip t) now db, FsmState.idle, Reply.registrationDone)) := by
  have hne : t ≠ [] → strTruthy (some t) = true := by
    intro h1
    cases t with
    | nil => exact absurd rfl h1
    | cons c ts => rfl
  refine ⟨rfl, rfl, ?_, ?_, rfl, rfl, ?_, ?_⟩
  · intro h1 h2
    simp [process_full_name, hne h1, h2]
  · intro h1 h2
    simp [process_full_name, hne h1, h2]
  · intro h1 h2
    simp [process_wish, hne h1, h2]
  · intro h1 h2
    simp [process_wish, hne h1, h2]

/-- Witness for the amended C8: a command token is rejected by the name
step; an ordinary wish is stored stripped by the wish step. -/
theorem claim8_amended_witness :
    process_full_name 10 0 (some ['/', 'c']) c8db FsmState.waitingFullName
      = (c8db, FsmState.waitingFullName, Reply.askFullNameInvalid) ∧
    process_wish 10 0 (some [' ', 'B']) c8db FsmState.waitingWish
      = (update_wish 10 (pyStrip [' ', 'B']) 0 c8db, FsmState.idle, Reply.registrationDone) := by
  constructor
  · exact (claim8_amended_input_checks 10 0 c8db FsmState.waitingFullName
      ['/', 'c']).2.2.1 (by decide) (by decide)
  · exact (claim8_amended_input_checks 10 0 c8db FsmState.waitingWish
      [' ', 'B']).2.2.2.2.2.2.2 (by decide) (by decide)

/-- Counterexample to C9: on an unknown external id the code performs no
mutation but also reports no failure — `update_full_name` and
`update_wish` return the unchanged state as an ordinary result, where
the spec-modelled operation reports NotFound. -/
theorem claim9_counterexample :
    update_full_name 7 ['A'] 0 initDB = initDB ∧
    update_wish 7 ['w'] 0 initDB = initDB ∧
    setDisplayName_specModel 7 ['A'] 0 initDB = Except.error StoreError.notFound ∧
    setWish_specModel 7 ['w'] 0 initDB = Except.error StoreError.notFound :=
  ⟨rfl, rfl, rfl, rfl⟩

/-- Amended C9: for an external id with no participant, `update_full_name`
and `update_wish` mutate nothing — the SQL UPDATE matches zero rows —
and return without any error report. -/
theorem claim9_amended_unknown_id_noop (tg_id now : Nat) (full_name wish : PyStr) (db : DB)
    (h : ∀ p ∈ db.players, p.tg_id ≠ tg_id) :
    update_full_name tg_id full_name now db = db ∧ update_wish tg_id wish now db = db := by
  constructor
  · unfold update_full_name
    have hmap : db.players.map (fun p =>
        if p.tg_id = tg_id then { p with full_name := some full_name, updated_at := now } else p)
        = db.players :=
      list_map_mem_id (fun p hp => if_neg (h p hp))
    rw [hmap]
  · unfold update_wish
    have hmap : db.players.map (fun p =>
        if p.tg_id = tg_id then { p with wish := some wish, updated_at := now } else p)
        = db.players :=
      list_map_mem_id (fun p hp => if_neg (h p hp))
    rw [hmap]

/-- Witness for the amended C9 on a concrete one-player database whose
only player has a different external id. -/
theorem claim9_amended_witness :
    update_full_name 7 ['A'] 0 c8db = c8db ∧ update_wish 7 ['w'] 0 c8db = c8db :=
  claim9_amended_unknown_id_noop 7 0 ['A'] ['w'] c8db (by decide)

/-- Claim C10: `build_test_pairs` performs no mutation (its state
component is the input state — the Python function only runs SELECTs);
on failure (fewer than 2 ready players, or unsatisfiable derangement) it
returns `(False, ready count, [])`, and on success it returns
`(True, ready count, pairs)` where the santa column of the pairs ranges
exactly over the ready participants and every pair maps a ready
participant to another ready participant with a different id, nothing
being persisted. -/
theorem claim10_build_test_pairs (rand : Nat → List Nat → List Nat) (db : DB)
    (_hnd : (db.players.map Player.id).Nodup) (hr : Shuffler rand) :
    (build_test_pairs rand db).2 = db ∧
    ((build_test_pairs rand db).1.1 = false →
      (build_test_pairs rand db).1 = (false, (get_all_players_ready db).length, [])) ∧
    ((build_test_pairs rand db).1.1 = true →
      (build_test_pairs rand db).1.2.1 = (get_all_players_ready db).length ∧
      ((build_test_pairs rand db).1.2.2.map (fun pr => pr.1.id))
        = (get_all_players_ready db).map Player.id ∧
      ∀ pr ∈ (build_test_pairs rand db).1.2.2,
        pr.1 ∈ get_all_players_ready db ∧ pr.2 ∈ get_all_players_ready db ∧
        pr.1.id ≠ pr.2.id) := by
  by_cases hlt : (get_all_players_ready db).length < 2
  · have heq : build_test_pairs rand db
        = ((false, (get_all_players_ready db).length, []), db) := by
      unfold build_test_pairs
      rw [if_pos hlt]
    rw [heq]
    exact ⟨rfl, fun _ => rfl, fun hc => absurd hc (by simp)⟩
  · cases hcd : create_derangement rand ((get_all_players_ready db).map Player.id) with
    | none =>
        have heq : build_test_pairs rand db
            = ((false, (get_all_players_ready db).length, []), db) := by
          unfold build_test_pairs
          rw [if_neg hlt, hcd]
        rw [heq]
        exact ⟨rfl, fun _ => rfl, fun hc => absurd hc (by simp)⟩
    | some ps =>
        cases ps with
        | nil =>
            have heq : build_test_pairs rand db
                = ((false, (get_all_players_ready db).length, []), db) := by
              unfold build_test_pairs
              rw [if_neg hlt, hcd]
            rw [heq]
            exact ⟨rfl, fun _ => rfl, fun hc => absurd hc (by simp)⟩
        | cons pr0 rest =>
            have heq : build_test_pairs rand db
                = ((true, (get_all_players_ready db).length,
                    (pr0 :: rest).map (fun q =>
                      (lookupById (get_all_players_ready db) q.1,
                       lookupById (get_all_players_ready db) q.2))), db) := by
              unfold build_test_pairs
              rw [if_neg hlt, hcd]
            obtain ⟨_, hfst, hsnd, hnf⟩ := create_derangement_spec hr hcd
            rw [heq]
            refine ⟨rfl, fun hc => absurd hc (by simp), fun _ => ⟨rfl, ?_, ?_⟩⟩
            · rw [List.map_map]
              have hpt : ∀ q ∈ pr0 :: rest,
                  ((fun pr : Player × Player => pr.1.id) ∘ (fun q =>
                    (lookupById (get_all_players_ready db) q.1,
                     lookupById (get_all_players_ready db) q.2))) q = Prod.fst q := by
                intro q hq
                have hq1 : q.1 ∈ (get_all_players_ready db).map Player.id := by
                  rw [← hfst]
                  exact List.mem_map_of_mem Prod.fst hq
                obtain ⟨w, hw, hwid⟩ := List.mem_map.mp hq1
                exact (lookupById_spec ⟨w, hw, hwid⟩).2
              rw [list_map_congr hpt, hfst]
            · intro pr hpr
              obtain ⟨q, hq, hqe⟩ := List.mem_map.mp hpr
              have hq1 : q.1 ∈ (get_all_players_ready db).map Player.id := by
                rw [← hfst]
                exact List.mem_map_of_mem Prod.fst hq
              have hq2 : q.2 ∈ (get_all_players_ready db).map Player.id := by
                rw [← List.Perm.mem_iff hsnd]
                exact List.mem_map_of_mem Prod.snd hq
              obtain ⟨w1, hw1, hw1id⟩ := List.mem_map.mp hq1
              obtain ⟨w2, hw2, hw2id⟩ := List.mem_map.mp hq2
              have s1 := lookupById_spec ⟨w1, hw1, hw1id⟩
              have s2 := lookupById_spec ⟨w2, hw2, hw2id⟩
              rw [← hqe]
              exact ⟨s1.1, s2.1, by rw [s1.2, s2.2]; exact hnf q hq⟩

/-- Witness for C10 on the concrete two-player database with the
reversing shuffle source. -/
theorem claim10_witness :
    (build_test_pairs rrand dbTwoReady).2 = dbTwoReady ∧
    ((build_test_pairs rrand dbTwoReady).1.1 = false →
      (build_test_pairs rrand dbTwoReady).1
        = (false, (get_all_players_ready dbTwoReady).length, [])) ∧
    ((build_test_pairs rrand dbTwoReady).1.1 = true →
      (build_test_pairs rrand dbTwoReady).1.2.1 = (get_all_players_ready dbTwoReady).length ∧
      ((build_test_pairs rrand dbTwoReady).1.2.2.map (fun pr => pr.1.id))
        = (get_all_players_ready dbTwoReady).map Player.id ∧
      ∀ pr ∈ (build_test_pairs rrand dbTwoReady).1.2.2,
        pr.1 ∈ get_all_players_ready dbTwoReady ∧
        pr.2 ∈ get_all_players_ready dbTwoReady ∧
        pr.1.id ≠ pr.2.id) :=
  claim10_build_test_pairs rrand dbTwoReady (by decide) rrand_shuffler
